import Mathlib

/-!
# Verification of the `redust` state container

A shallow embedding of the `redust` Rust crate (a minimal Redux-style
store) together with proofs of its specified properties.

Source correspondence:
* `Reducer`              — `src/reducer.rs` type alias (re-exported from
  `src/lib.rs`), used in `src/store.rs` as `fn(&State, &Action) -> State`.
* `UnsubscribeError`     — `src/subscription.rs`.
* `Store` and its four operations — `src/store.rs`.

Modelling decisions:
* `SubscriptionToken` is `u8` in the source (`src/subscription.rs`); tokens
  are modelled as `Nat` and the `subscriptions_index += 1` counter update is
  modelled with wrap-around arithmetic `% 256` (two's-complement wrapping,
  the behaviour of a release build).
* The registry `HashMap<SubscriptionToken, Subscription<State>>` is modelled
  as an association list with unique keys; `insert` removes any stale
  binding for the key and appends, `remove` filters the key out.  Iteration
  order of a `HashMap` is unspecified, so no claim below depends on the
  order of the association list beyond multiplicity.
* Observer callbacks `fn(&State)` are opaque side-effecting values; they are
  modelled by an opaque type parameter `Obs`, and an invocation is recorded
  as an event `(token, observer, state passed)` emitted by `dispatch`
  instead of being executed.
-/

namespace Redust

/-- Modelled from the spec: `src/reducer.rs` is not in the sources, but
`src/lib.rs` re-exports `Reducer` and `src/store.rs` calls it as
`(&self.reducer)(self.state(), &action) : State`, and the spec describes it
as a pure function `(S, A) -> S`. -/
def Reducer (State Action : Type) : Type := State → Action → State

/-- `src/subscription.rs`: the only error of the crate, carrying the
offending token. -/
inductive UnsubscribeError where
  | WrongToken : Nat → UnsubscribeError
deriving DecidableEq

/-- The keys of an association-list registry. -/
def keysOf {Obs : Type} (m : List (Nat × Obs)) : List Nat :=
  m.map (fun p => p.1)

/-- `HashMap` lookup on the association-list model. -/
def hmLookup {Obs : Type} (k : Nat) (m : List (Nat × Obs)) : Option Obs :=
  (m.find? (fun p => p.1 == k)).map (fun p => p.2)

/-- `HashMap::insert` on the association-list model: drop any stale binding
of the key, then append the new one. -/
def hmInsert {Obs : Type} (k : Nat) (v : Obs) (m : List (Nat × Obs)) :
    List (Nat × Obs) :=
  m.filter (fun p => p.1 != k) ++ [(k, v)]

/-- `src/store.rs`: the store.  `Obs` is the opaque type of observer
callbacks (`Subscription<State> = fn(&State)` in `src/lib.rs`). -/
structure Store (State Action Obs : Type) where
  reducer : Reducer State Action
  state : State
  subscriptions : List (Nat × Obs)
  subscriptions_index : Nat

/-- `Store::new` (`src/store.rs`): initial state, empty registry, counter 0. -/
def Store.new {State Action Obs : Type} (r : Reducer State Action)
    (initial_state : State) : Store State Action Obs :=
  { reducer := r
    state := initial_state
    subscriptions := []
    subscriptions_index := 0 }

/-- `Store::dispatch` (`src/store.rs`): compute the new state with the
reducer, store it, then invoke every registered observer with the new
state.  The returned list records the invocations performed, one event
`(token, observer, state passed)` per registry entry, in registry order. -/
def Store.dispatch {State Action Obs : Type} (s : Store State Action Obs)
    (a : Action) : Store State Action Obs × List (Nat × Obs × State) :=
  let newState := s.reducer s.state a
  ({ s with state := newState },
   s.subscriptions.map (fun p => (p.1, p.2, newState)))

/-- `Store::subscribe` (`src/store.rs`): register the callback under the
current counter value, increment the counter (a wrapping `u8` increment),
and return the token. -/
def Store.subscribe {State Action Obs : Type} (s : Store State Action Obs)
    (f : Obs) : Store State Action Obs × Nat :=
  let subscription_token := s.subscriptions_index
  ({ s with
      subscriptions := hmInsert subscription_token f s.subscriptions
      subscriptions_index := (s.subscriptions_index + 1) % 256 },
   subscription_token)

/-- `Store::unsubscribe` (`src/store.rs`): `HashMap::remove`; on a missing
key return `WrongToken` and leave the store untouched. -/
def Store.unsubscribe {State Action Obs : Type} (s : Store State Action Obs)
    (subscription_token : Nat) :
    Except UnsubscribeError Unit × Store State Action Obs :=
  match hmLookup subscription_token s.subscriptions with
  | none => (Except.error (UnsubscribeError.WrongToken subscription_token), s)
  | some _ =>
    (Except.ok (),
     { s with
        subscriptions :=
          s.subscriptions.filter (fun p => p.1 != subscription_token) })

/-- One public mutating operation of the store API. -/
inductive Op (Action Obs : Type) where
  | dispatch : Action → Op Action Obs
  | subscribe : Obs → Op Action Obs
  | unsubscribe : Nat → Op Action Obs

/-- Whether an operation is a `subscribe` call. -/
def Op.isSubscribe {Action Obs : Type} : Op Action Obs → Bool
  | Op.dispatch _ => false
  | Op.subscribe _ => true
  | Op.unsubscribe _ => false

/-- Apply one operation; return the new store and the observer invocations
it performed. -/
def Store.step {State Action Obs : Type} (s : Store State Action Obs) :
    Op Action Obs → Store State Action Obs × List (Nat × Obs × State)
  | Op.dispatch a => s.dispatch a
  | Op.subscribe f => ((s.subscribe f).1, [])
  | Op.unsubscribe t => ((s.unsubscribe t).2, [])

/-- Run a sequence of operations, collecting all observer invocations. -/
def Store.run {State Action Obs : Type} (s : Store State Action Obs) :
    List (Op Action Obs) → Store State Action Obs × List (Nat × Obs × State)
  | [] => (s, [])
  | op :: ops =>
    let p := s.step op
    let q := p.1.run ops
    (q.1, p.2 ++ q.2)

/-- Number of `subscribe` calls in a sequence of operations. -/
def subCount {Action Obs : Type} : List (Op Action Obs) → Nat
  | [] => 0
  | Op.dispatch _ :: ops => subCount ops
  | Op.subscribe _ :: ops => subCount ops + 1
  | Op.unsubscribe _ :: ops => subCount ops

/-- The tokens returned by the `subscribe` calls in a sequence of
operations, in call order. -/
def Store.tokensIssued {State Action Obs : Type} (s : Store State Action Obs) :
    List (Op Action Obs) → List Nat
  | [] => []
  | Op.dispatch a :: ops => ((s.dispatch a).1).tokensIssued ops
  | Op.subscribe f :: ops =>
    (s.subscribe f).2 :: ((s.subscribe f).1).tokensIssued ops
  | Op.unsubscribe t :: ops => ((s.unsubscribe t).2).tokensIssued ops

/-! ## Registry lemmas -/

/-- A key absent from a registry matches none of its entries. -/
theorem filter_key_of_not_mem {Obs : Type} {tok : Nat} {m : List (Nat × Obs)}
    (h : tok ∉ keysOf m) : m.filter (fun p => p.1 == tok) = [] := by
  induction m with
  | nil => rfl
  | cons hd tl ih =>
    simp only [keysOf, List.map_cons, List.mem_cons, not_or] at h
    simp only [List.filter_cons]
    rw [if_neg, ih h.2]
    simp only [beq_iff_eq]
    exact fun hc => h.1 (hc ▸ rfl)

/-- In a registry with pairwise-distinct keys, a registered token matches
exactly its own entry. -/
theorem filter_key_unique {Obs : Type} {tok : Nat} {obs : Obs}
    {m : List (Nat × Obs)} (hnd : (keysOf m).Nodup)
    (hmem : (tok, obs) ∈ m) : m.filter (fun p => p.1 == tok) = [(tok, obs)] := by
  induction m with
  | nil => cases hmem
  | cons hd tl ih =>
    simp only [keysOf, List.map_cons, List.nodup_cons] at hnd
    rcases List.mem_cons.1 hmem with heq | hmem'
    · subst heq
      rw [List.filter_cons, filter_key_of_not_mem hnd.1]
      simp
    · have hne : hd.1 ≠ tok := by
        intro hc
        exact hnd.1 (hc ▸ List.mem_map_of_mem (fun p => p.1) hmem')
      simp only [List.filter_cons]
      rw [if_neg (by simpa using hne)]
      exact ih hnd.2 hmem'

/-- The fresh binding inserted by `hmInsert` is the only entry of its key. -/
theorem filter_key_insert {Obs : Type} (k : Nat) (v : Obs)
    (m : List (Nat × Obs)) :
    (hmInsert k v m).filter (fun p => p.1 == k) = [(k, v)] := by
  unfold hmInsert
  rw [List.filter_append]
  have h1 : (m.filter (fun p => p.1 != k)).filter (fun p => p.1 == k) = [] := by
    rw [List.filter_filter]
    apply List.filter_eq_nil_iff.2
    intro p _
    simp [Bool.and_comm]
  rw [h1]
  simp

/-- Looking up the key just inserted by `hmInsert` finds the new value. -/
theorem hmLookup_insert_self {Obs : Type} (k : Nat) (v : Obs)
    (m : List (Nat × Obs)) : hmLookup k (hmInsert k v m) = some v := by
  unfold hmLookup hmInsert
  rw [List.find?_append]
  have h1 : (m.filter (fun p => p.1 != k)).find? (fun p => p.1 == k) = none := by
    apply List.find?_eq_none.2
    intro p hp
    have := List.of_mem_filter hp
    simpa using this
  rw [h1]
  simp

/-- A token is absent from a registry exactly when `hmLookup` misses. -/
theorem hmLookup_eq_none_iff {Obs : Type} {tok : Nat} {m : List (Nat × Obs)} :
    hmLookup tok m = none ↔ tok ∉ keysOf m := by
  unfold hmLookup keysOf
  cases hfind : m.find? (fun q => q.1 == tok) with
  | none =>
    refine ⟨fun _ hmem => ?_, fun _ => rfl⟩
    rcases List.mem_map.1 hmem with ⟨p, hp, hk⟩
    have h2 := List.find?_eq_none.1 hfind p hp
    simp [hk] at h2
  | some q =>
    constructor
    · intro h
      simp at h
    · intro h
      exact absurd
        (List.mem_map.2 ⟨q, List.mem_of_find?_eq_some hfind,
          by simpa using List.find?_some hfind⟩) h

/-- Filtering the invocation events of a dispatch by token commutes with
building the events from the registry entries. -/
theorem filter_fst_map_event {State Obs : Type} (tok : Nat) (ns : State)
    (m : List (Nat × Obs)) :
    (m.map (fun p => (p.1, p.2, ns))).filter (fun e => e.1 == tok)
      = (m.filter (fun p => p.1 == tok)).map (fun p => (p.1, p.2, ns)) := by
  induction m with
  | nil => rfl
  | cons hd tl ih =>
    by_cases h : hd.1 = tok
    · simp [List.filter_cons, h, ih]
    · simp [List.filter_cons, h, ih]

/-! ## Concrete instantiation used by witnesses and counterexamples -/

/-- A concrete reducer on `Nat` states and `Nat` actions (the identity on
the state), used only to instantiate theorems at concrete inputs. -/
def natReducer : Reducer Nat Nat := fun s _ => s

/-- The store obtained from a fresh store by `n` successive `subscribe`
calls, the `k`-th call registering the observer identifier `k - 1`. -/
def subMany : Nat → Store Nat Nat Nat
  | 0 => Store.new natReducer 0
  | n + 1 => ((subMany n).subscribe n).1

/-- A concrete store holding one subscription: observer `7` under token
`0`. -/
def oneSubStore : Store Nat Nat Nat :=
  ((Store.new natReducer 0 : Store Nat Nat Nat).subscribe 7).1

/-! ## Theorems -/

/-- Claim C1: after `dispatch(action)` on a store whose current state is
`state`, `state()` returns exactly `reducer(state, action)`. -/
theorem dispatch_transition_correct {State Action Obs : Type}
    (s : Store State Action Obs) (a : Action) :
    ((s.dispatch a).1).state = s.reducer s.state a := rfl

/-- Claim C7: `new(reducer, S0)` yields a store whose `state()` returns
exactly `S0` and whose subscription registry is empty (with the token
counter at zero). -/
theorem new_store_initial {State Action Obs : Type}
    (r : Reducer State Action) (s0 : State) :
    (Store.new r s0 : Store State Action Obs).state = s0
    ∧ (Store.new r s0 : Store State Action Obs).subscriptions = []
    ∧ (Store.new r s0 : Store State Action Obs).subscriptions_index = 0 :=
  ⟨rfl, rfl, rfl⟩

/-- Claim C8: `dispatch` leaves the subscription registry and the token
counter (and the reducer) unchanged. -/
theorem dispatch_preserves_registry {State Action Obs : Type}
    (s : Store State Action Obs) (a : Action) :
    ((s.dispatch a).1).subscriptions = s.subscriptions
    ∧ ((s.dispatch a).1).subscriptions_index = s.subscriptions_index
    ∧ ((s.dispatch a).1).reducer = s.reducer :=
  ⟨rfl, rfl, rfl⟩

/-- Claim C3: `unsubscribe` on a token absent from the registry returns the
unknown-token error carrying that token, leaves the store unchanged, and
fails the same way on every repetition. -/
theorem unsubscribe_unknown_token {State Action Obs : Type}
    (s : Store State Action Obs) (tok : Nat)
    (h : hmLookup tok s.subscriptions = none) :
    (s.unsubscribe tok).1 = Except.error (UnsubscribeError.WrongToken tok)
    ∧ (s.unsubscribe tok).2 = s
    ∧ (((s.unsubscribe tok).2).unsubscribe tok).1
        = Except.error (UnsubscribeError.WrongToken tok) := by
  refine ⟨?_, ?_, ?_⟩ <;> simp [Store.unsubscribe, h]

/-- Witness for C3: on a fresh store (empty registry) `unsubscribe 3` fails
with `WrongToken 3`. -/
theorem unsubscribe_unknown_token_witness :
    ((Store.new natReducer 0 : Store Nat Nat Nat).unsubscribe 3).1
      = Except.error (UnsubscribeError.WrongToken 3) :=
  (unsubscribe_unknown_token (Store.new natReducer 0) 3 rfl).1

/-- Claim C10: `unsubscribe` never changes the state value or the token
counter, and when it fails the whole store is exactly as before the call. -/
theorem unsubscribe_frame {State Action Obs : Type}
    (s : Store State Action Obs) (tok : Nat) :
    ((s.unsubscribe tok).2).state = s.state
    ∧ ((s.unsubscribe tok).2).subscriptions_index = s.subscriptions_index
    ∧ (∀ e : UnsubscribeError,
        (s.unsubscribe tok).1 = Except.error e → (s.unsubscribe tok).2 = s) := by
  cases h : hmLookup tok s.subscriptions <;>
    simp [Store.unsubscribe, h]

/-- Witness for C10: on a fresh store the failing call `unsubscribe 5`
leaves the store exactly unchanged. -/
theorem unsubscribe_frame_witness :
    (((Store.new natReducer 0 : Store Nat Nat Nat).unsubscribe 5).2)
      = Store.new natReducer 0 :=
  (unsubscribe_frame (Store.new natReducer 0) 5).2.2
    (UnsubscribeError.WrongToken 5) rfl

/-- Claim C2: during one `dispatch`, every observer registered before the
dispatch is invoked exactly once, and every invocation carries the
post-transition state `reducer(state, action)`, never the pre-transition
state.  The registry keys are pairwise distinct (the `HashMap` invariant). -/
theorem dispatch_notifies_each_registered_once {State Action Obs : Type}
    (s : Store State Action Obs) (a : Action) (tok : Nat) (obs : Obs)
    (hnd : (keysOf s.subscriptions).Nodup)
    (hmem : (tok, obs) ∈ s.subscriptions) :
    ((s.dispatch a).2).filter (fun e => e.1 == tok)
      = [(tok, obs, s.reducer s.state a)]
    ∧ ∀ e ∈ (s.dispatch a).2, e.2.2 = s.reducer s.state a := by
  constructor
  · simp only [Store.dispatch]
    rw [filter_fst_map_event, filter_key_unique hnd hmem]
    rfl
  · intro e he
    simp only [Store.dispatch] at he
    rcases List.mem_map.1 he with ⟨p, _, rfl⟩
    rfl

/-- Witness for C2: on a store holding observer `7` under token `0`,
dispatching action `3` invokes that observer exactly once, with the
post-transition state `0`. -/
theorem dispatch_notifies_each_registered_once_witness :
    ((oneSubStore.dispatch 3).2).filter (fun e => e.1 == 0) = [(0, 7, 0)] :=
  (dispatch_notifies_each_registered_once oneSubStore 3 0 7 (by decide)
    (by decide)).1

/-- Claim C6: `subscribe` always succeeds — for every store, whatever
operations preceded, it returns a token under which the observer is now
registered. -/
theorem subscribe_always_succeeds {State Action Obs : Type}
    (s : Store State Action Obs) (f : Obs) :
    hmLookup ((s.subscribe f).2) (((s.subscribe f).1).subscriptions)
      = some f := by
  simp only [Store.subscribe]
  exact hmLookup_insert_self _ _ _

/-- Claim C9: `subscribe` invokes no observer, leaves the state value
unchanged, and the observer it registered is invoked (exactly once) by the
next `dispatch`. -/
theorem subscribe_frame {State Action Obs : Type}
    (s : Store State Action Obs) (f : Obs) (a : Action) :
    ((s.subscribe f).1).state = s.state
    ∧ (s.step (Op.subscribe f)).2 = []
    ∧ (s.subscribe f).2 = s.subscriptions_index
    ∧ (((s.subscribe f).1).dispatch a).2.filter
        (fun e => e.1 == s.subscriptions_index)
      = [(s.subscriptions_index, f, s.reducer s.state a)] := by
  refine ⟨rfl, rfl, rfl, ?_⟩
  simp only [Store.subscribe, Store.dispatch]
  rw [filter_fst_map_event, filter_key_insert]
  rfl

/-- Keys only disappear under `filter`, so an absent token stays absent. -/
theorem not_mem_keys_filter {Obs : Type} {tok : Nat} {m : List (Nat × Obs)}
    (q : Nat × Obs → Bool) (h : tok ∉ keysOf m) :
    tok ∉ keysOf (m.filter q) := by
  intro hmem
  rcases List.mem_map.1 hmem with ⟨p, hp, hk⟩
  exact h (List.mem_map.2 ⟨p, List.mem_of_mem_filter hp, hk⟩)

/-- `unsubscribe` never adds a key: an absent token stays absent. -/
theorem not_mem_keys_unsubscribe {State Action Obs : Type}
    {s : Store State Action Obs} {tok t : Nat}
    (h : tok ∉ keysOf s.subscriptions) :
    tok ∉ keysOf (((s.unsubscribe t).2).subscriptions) := by
  cases hl : hmLookup t s.subscriptions with
  | none => simpa [Store.unsubscribe, hl] using h
  | some v =>
    simp only [Store.unsubscribe, hl]
    exact not_mem_keys_filter _ h

/-- Along any run containing no `subscribe` call, a token absent from the
registry is never the token of an invoked observer. -/
theorem run_no_subscribe_avoids_token {State Action Obs : Type} (tok : Nat) :
    ∀ (ops : List (Op Action Obs)) (s : Store State Action Obs),
      (∀ op ∈ ops, op.isSubscribe = false) →
      tok ∉ keysOf s.subscriptions →
      ∀ e ∈ (s.run ops).2, e.1 ≠ tok := by
  intro ops
  induction ops with
  | nil =>
    intro s _ _ e he
    simp [Store.run] at he
  | cons op ops ih =>
    intro s hops htok e he
    have hop : op.isSubscribe = false := hops op (List.mem_cons_self op ops)
    simp only [Store.run] at he
    rcases List.mem_append.1 he with h1 | h2
    · cases op with
      | dispatch a =>
        simp only [Store.step, Store.dispatch] at h1
        rcases List.mem_map.1 h1 with ⟨p, hp, rfl⟩
        intro hc
        exact htok (hc ▸ List.mem_map.2 ⟨p, hp, rfl⟩)
      | subscribe f => simp [Op.isSubscribe] at hop
      | unsubscribe t => simp [Store.step] at h1
    · refine ih (s.step op).1
        (fun o ho => hops o (List.mem_cons_of_mem op ho)) ?_ e h2
      cases op with
      | dispatch a => exact htok
      | subscribe f => simp [Op.isSubscribe] at hop
      | unsubscribe t => exact not_mem_keys_unsubscribe htok

/-- Claim C4: on a token present in the registry, `unsubscribe` succeeds,
removes the registration, and no subsequent `dispatch` (along any following
sequence of dispatch and unsubscribe operations — a later `subscribe` would
start a fresh registration) ever invokes an observer under that token. -/
theorem unsubscribe_effective {State Action Obs : Type}
    (s : Store State Action Obs) (tok : Nat) (obs : Obs)
    (ops : List (Op Action Obs))
    (hreg : hmLookup tok s.subscriptions = some obs)
    (hops : ∀ op ∈ ops, op.isSubscribe = false) :
    (s.unsubscribe tok).1 = Except.ok ()
    ∧ hmLookup tok (((s.unsubscribe tok).2).subscriptions) = none
    ∧ ∀ e ∈ (((s.unsubscribe tok).2).run ops).2, e.1 ≠ tok := by
  have hnot : tok ∉ keysOf (((s.unsubscribe tok).2).subscriptions) := by
    simp only [Store.unsubscribe, hreg]
    intro hmem
    rcases List.mem_map.1 hmem with ⟨p, hp, hk⟩
    have hfil := List.of_mem_filter hp
    simp [hk] at hfil
  refine ⟨?_, hmLookup_eq_none_iff.2 hnot,
    run_no_subscribe_avoids_token tok ops _ hops hnot⟩
  simp [Store.unsubscribe, hreg]

/-- Witness for C4: on the store holding observer `7` under token `0`,
`unsubscribe 0` succeeds (with a following dispatch allowed). -/
theorem unsubscribe_effective_witness :
    (oneSubStore.unsubscribe 0).1 = Except.ok () :=
  (unsubscribe_effective oneSubStore 0 7 [Op.dispatch 1] (by decide)
    (by decide)).1

/-- `unsubscribe` never changes the token counter. -/
theorem unsubscribe_index_eq {State Action Obs : Type}
    (s : Store State Action Obs) (t : Nat) :
    ((s.unsubscribe t).2).subscriptions_index = s.subscriptions_index := by
  cases hl : hmLookup t s.subscriptions <;> simp [Store.unsubscribe, hl]

/-- The tokens issued along a run are consecutive counter values modulo
`256`, starting at the current counter. -/
theorem tokensIssued_formula {State Action Obs : Type} :
    ∀ (ops : List (Op Action Obs)) (s : Store State Action Obs),
      s.subscriptions_index < 256 →
      s.tokensIssued ops
        = (List.range (subCount ops)).map
            (fun k => (s.subscriptions_index + k) % 256) := by
  intro ops
  induction ops with
  | nil => intro s _; rfl
  | cons op ops ih =>
    intro s hi
    cases op with
    | dispatch a =>
      simp only [Store.tokensIssued, subCount]
      exact ih _ hi
    | subscribe f =>
      simp only [Store.tokensIssued, subCount]
      rw [ih _ (Nat.mod_lt _ (by norm_num)), List.range_succ_eq_map,
        List.map_cons, List.map_map]
      congr 1
      · simp only [Store.subscribe]
        omega
      · apply List.map_congr_left
        intro k _
        simp only [Store.subscribe, Function.comp_apply]
        omega
    | unsubscribe t =>
      simp only [Store.tokensIssued, subCount]
      rw [ih _ (by rw [unsubscribe_index_eq]; exact hi)]
      simp only [unsubscribe_index_eq]

set_option maxRecDepth 10000 in
/-- Counterexample to C5: tokens ARE reused.  The very first `subscribe` on
a fresh store issues token `0`; after 256 `subscribe` calls the wrapping
`u8` counter is back at `0`, so the 257th call issues token `0` again —
a token previously issued, and one under which observer `0` is still
registered at that moment. -/
theorem subscribe_token_reuse_counterexample :
    ((subMany 0).subscribe 0).2 = 0
    ∧ ((subMany 256).subscribe 256).2 = 0
    ∧ hmLookup 0 (subMany 256).subscriptions = some 0 := by
  refine ⟨rfl, ?_, ?_⟩ <;> decide

/-- Claim C5 (amended): as long as at most 256 `subscribe` calls are made
over a store's lifetime, every `subscribe` call returns a token distinct
from every token previously issued by that store (the `u8` counter wraps
after 256 allocations, after which tokens are reused). -/
theorem tokens_distinct_within_width {State Action Obs : Type}
    (r : Reducer State Action) (s0 : State) (ops : List (Op Action Obs))
    (h : subCount ops ≤ 256) :
    ((Store.new r s0 : Store State Action Obs).tokensIssued ops).Nodup := by
  rw [tokensIssued_formula ops _ (show (0 : Nat) < 256 by norm_num)]
  have hmap : (List.range (subCount ops)).map
      (fun k => ((Store.new r s0 :
          Store State Action Obs).subscriptions_index + k) % 256)
      = (List.range (subCount ops)).map id := by
    apply List.map_congr_left
    intro k hk
    have hk2 : k < 256 := lt_of_lt_of_le (List.mem_range.1 hk) h
    show (0 + k) % 256 = k
    omega
  rw [hmap, List.map_id]
  exact List.nodup_range _

/-- Witness for the amended C5: three operations with two `subscribe` calls
issue pairwise-distinct tokens. -/
theorem tokens_distinct_within_width_witness :
    subCount [Op.subscribe 5, Op.dispatch 1, Op.subscribe (6 : Nat)] ≤ 256
    ∧ ((Store.new natReducer 0 : Store Nat Nat Nat).tokensIssued
        [Op.subscribe 5, Op.dispatch 1, Op.subscribe 6]).Nodup :=
  ⟨by decide, tokens_distinct_within_width natReducer 0 _ (by decide)⟩

end Redust
